import Mathlib

/-!
Shallow embedding of the obsctl credential/context store
(`pkg/config/config.go`): the data model (APIs → tenants → contexts →
OIDC credentials plus the "current" selection), the mutating operations,
the token lifecycle (`updateOIDCToken`), the client factory (`Client`),
and the JSON persistence round trip.

Go maps are modelled as association lists (first-match lookup, in-place
replace on insert of an existing key, delete of the first occurrence on
erase); `time.Time` is modelled as `Int` seconds, with `0` standing for
Go's zero time; Go's `nil` pointer for the optional OIDC credential is
`Option`.  A separate pointer-aware model (`StoreH`, with an explicit
heap addressed by `Nat`) captures the fact that `Context.OIDC` is a
`*OIDCConfig` in the source, so the struct value returned by
`GetCurrent` shares its credential with the store.
-/

set_option autoImplicit false

namespace Obsctl

/-! ### Association-list model of Go maps -/

/-- First-match lookup, the semantics of `m[k]` on a Go map. -/
def mapLookup {α : Type} : List (String × α) → String → Option α
  | [], _ => none
  | (k2, v) :: rest, k => if k2 = k then some v else mapLookup rest k

/-- `m[k] = v` on a Go map: replace the binding if present, append otherwise. -/
def mapInsert {α : Type} : List (String × α) → String → α → List (String × α)
  | [], k, v => [(k, v)]
  | (k2, v2) :: rest, k, v =>
      if k2 = k then (k2, v) :: rest else (k2, v2) :: mapInsert rest k v

/-- `delete(m, k)` on a Go map. -/
def mapErase {α : Type} : List (String × α) → String → List (String × α)
  | [], _ => []
  | (k2, v2) :: rest, k => if k2 = k then rest else (k2, v2) :: mapErase rest k

theorem mapLookup_insert {α : Type} (m : List (String × α)) (k k2 : String) (v : α) :
    mapLookup (mapInsert m k v) k2 = if k = k2 then some v else mapLookup m k2 := by
  induction m with
  | nil =>
      by_cases h : k = k2 <;> simp [mapInsert, mapLookup, h]
  | cons p rest ih =>
      obtain ⟨k3, v3⟩ := p
      by_cases h3 : k3 = k
      · subst h3
        by_cases h : k3 = k2 <;> simp [mapInsert, mapLookup, h]
      · by_cases h2 : k3 = k2
        · subst h2
          have : ¬ k = k3 := fun h => h3 h.symm
          simp [mapInsert, mapLookup, h3, this]
        · simp [mapInsert, mapLookup, h3, h2, ih]

/-! ### Data model (`config.go` lines 219-250 of the authoritative part) -/

abbrev APIName := String

abbrev TenantName := String

/-- OIDC credential material: cached token plus static refresh parameters. -/
structure OIDCConfig where
  accessToken  : String
  refreshToken : String
  expiry       : Int
  audience     : String
  clientID     : String
  clientSecret : String
  issuerURL    : String
deriving DecidableEq

/-- A tenant context: display label plus an optional OIDC credential
(`OIDC *OIDCConfig` in the source — the `Option` here abstracts the
pointer; aliasing is treated in the `StoreH` model below). -/
structure Context where
  tenant : String
  oidc   : Option OIDCConfig
deriving DecidableEq

/-- A named backend: base URL and its tenant contexts. -/
structure API where
  url      : String
  contexts : List (TenantName × Context)
deriving DecidableEq

/-- The "current" selection pair. -/
structure CurrentSel where
  api    : APIName
  tenant : TenantName
deriving DecidableEq

/-- The whole persisted document. -/
structure Config where
  apis    : List (APIName × API)
  current : CurrentSel
deriving DecidableEq

/-- Error taxonomy of the store operations (the source returns
`fmt.Errorf` values; each constructor names one error site family). -/
inductive CfgError where
  | alreadyExists
  | notFound
  | emptySelection
deriving DecidableEq

/-! ### Mutating operations (`config.go` lines 312-393)

Each returns the error (if any) together with the state of the receiver
after the call; on a `some` error the source returns before reaching
`Save`, so the returned state is also the unpersisted/unchanged one. -/

/-- `Config.AddAPI`.  The `if c.APIs == nil` allocation in the source is
a no-op in the list model (a nil map and an empty map look up alike). -/
def Config.AddAPI (c : Config) (name : APIName) (url : String) :
    Option CfgError × Config :=
  match mapLookup c.apis name with
  | some _ => (some .alreadyExists, c)
  | none => (none, { c with apis := mapInsert c.apis name ⟨url, []⟩ })

/-- `Config.RemoveAPI`. -/
def Config.RemoveAPI (c : Config) (name : APIName) : Option CfgError × Config :=
  match mapLookup c.apis name with
  | none => (some .notFound, c)
  | some _ => (none, { c with apis := mapErase c.apis name })

/-- `Config.AddTenant`.  The nil-map allocation at lines 341-346 is a
no-op in the list model. -/
def Config.AddTenant (c : Config) (name : TenantName) (api : APIName)
    (tenant : String) (oidcCfg : Option OIDCConfig) : Option CfgError × Config :=
  match mapLookup c.apis api with
  | none => (some .notFound, c)
  | some a =>
    match mapLookup a.contexts name with
    | some _ => (some .alreadyExists, c)
    | none =>
      let a2 : API := { a with contexts := mapInsert a.contexts name ⟨tenant, oidcCfg⟩ }
      let c2 : Config := { c with apis := mapInsert c.apis api a2 }
      -- lines 357-361: if the current context is empty, select the new tenant
      if c.current.api = "" ∧ c.current.tenant = "" then
        (none, { c2 with current := ⟨api, name⟩ })
      else
        (none, c2)

/-- `Config.RemoveTenant`. -/
def Config.RemoveTenant (c : Config) (name : TenantName) (api : APIName) :
    Option CfgError × Config :=
  match mapLookup c.apis api with
  | none => (some .notFound, c)
  | some a =>
    match mapLookup a.contexts name with
    | none => (some .notFound, c)
    | some _ =>
      (none, { c with apis := mapInsert c.apis api { a with contexts := mapErase a.contexts name } })

/-- `Config.SetCurrent`. -/
def Config.SetCurrent (c : Config) (api : APIName) (tenant : TenantName) :
    Option CfgError × Config :=
  match mapLookup c.apis api with
  | none => (some .notFound, c)
  | some a =>
    match mapLookup a.contexts tenant with
    | none => (some .notFound, c)
    | some _ => (none, { c with current := ⟨api, tenant⟩ })

/-- `Config.GetCurrent` (lines 395-409): read-only resolution of the
selection. -/
def Config.GetCurrent (c : Config) : Except CfgError Context :=
  if c.current.api = "" ∨ c.current.tenant = "" then
    .error .emptySelection
  else
    match mapLookup c.apis c.current.api with
    | none => .error .notFound
    | some a =>
      match mapLookup a.contexts c.current.tenant with
      | none => .error .notFound
      | some ctx => .ok ctx

/-- `true` iff the selection resolves to an existing (API, tenant) pair. -/
def Config.selResolves (c : Config) : Bool :=
  match mapLookup c.apis c.current.api with
  | none => false
  | some a => (mapLookup a.contexts c.current.tenant).isSome

/-- The selection invariant of the spec: both fields empty, or both
resolve. -/
def Config.selInv (c : Config) : Bool :=
  (c.current.api == "" && c.current.tenant == "") || c.selResolves

/-- `true` iff exactly one field of the selection is empty (a "half-set"
selection). -/
def Config.selHalfSet (c : Config) : Bool :=
  (c.current.api == "") != (c.current.tenant == "")

/-! ### Token lifecycle (`config.go` lines 411-488)

The external token-provider capability (`oidc.NewProvider` discovery and
`clientcredentials.Config.Token` exchange) is a parameter: `disc` maps an
issuer URL to its token endpoint (or fails), `exch` maps a
client-credentials request to a fresh token (or fails).  The results
carry how many discovery and exchange calls were made and whether the
store was saved. -/

/-- An `oauth2.Token` as reconstructed at lines 417-421. -/
structure OAuthToken where
  accessToken  : String
  refreshToken : String
  expiry       : Int
deriving DecidableEq

/-- `defaultExpiryDelta` of the vendored `golang.org/x/oauth2` library:
10 seconds. -/
def expiryDelta : Int := 10

/-- Models `oauth2.Token.expired`: a zero expiry never expires; otherwise
the token counts as expired from `expiryDelta` seconds before `expiry`. -/
def OAuthToken.expired (t : OAuthToken) (now : Int) : Bool :=
  if t.expiry = 0 then false else decide (t.expiry - expiryDelta < now)

/-- Models `oauth2.Token.Valid`: non-empty access token and not expired. -/
def OAuthToken.valid (t : OAuthToken) (now : Int) : Bool :=
  t.accessToken != "" && !(t.expired now)

/-- A `clientcredentials.Config` as built at lines 474-485. -/
structure ClientCredsConfig where
  clientID      : String
  clientSecret  : String
  tokenURL      : String
  scopes        : List String
  audienceParam : Option String
deriving DecidableEq

/-- `OIDCConfig.clientCredentialsConfig` (lines 468-488): discovery on
the issuer URL, then the client-credentials request shape.  `none`
models the `oidc.NewProvider` error path. -/
def OIDCConfig.clientCredentialsConfig (o : OIDCConfig)
    (disc : String → Option String) : Option ClientCredsConfig :=
  match disc o.issuerURL with
  | none => none
  | some tokenURL =>
      some { clientID := o.clientID
             clientSecret := o.clientSecret
             tokenURL := tokenURL
             scopes := ["openid", "offline_access"]
             audienceParam := if o.audience = "" then none else some o.audience }

/-- Error taxonomy of `updateOIDCToken`. -/
inductive UpdErr where
  | current (e : CfgError)
  | clientCreds
  | fetchToken
deriving DecidableEq

/-- Outcome of `updateOIDCToken`: success (with the receiver's state, the
discovery/exchange call counts, and whether `Save` ran), an error (with
the counts), or a nil-pointer dereference (the source reads
`cctx.OIDC.AccessToken` at line 419 without a nil check). -/
inductive TokenRes where
  | ok (c : Config) (discCalls exchCalls : Nat) (saved : Bool)
  | err (e : UpdErr) (discCalls exchCalls : Nat)
  | nilDeref
deriving DecidableEq

/-- Discovery-call count of a `TokenRes`. -/
def TokenRes.discCount : TokenRes → Nat
  | .ok _ d _ _ => d
  | .err _ d _ => d
  | .nilDeref => 0

/-- Exchange-call count of a `TokenRes`. -/
def TokenRes.exchCount : TokenRes → Nat
  | .ok _ _ x _ => x
  | .err _ _ x => x
  | .nilDeref => 0

/-- The credential overwrite performed on a successful refresh
(lines 437-439): replace access token, refresh token and expiry with the
provider response, keeping the static identity parameters. -/
def OIDCConfig.withToken (o : OIDCConfig) (t : OAuthToken) : OIDCConfig :=
  { o with accessToken := t.accessToken
           refreshToken := t.refreshToken
           expiry := t.expiry }

/-- The write-back at line 441:
`c.APIs[c.Current.API].Contexts[c.Current.Tenant] = cctx`. -/
def Config.writeCurrentContext (c : Config) (ctx : Context) : Config :=
  match mapLookup c.apis c.current.api with
  | none => c
  | some a =>
      let a2 : API := { a with contexts := mapInsert a.contexts c.current.tenant ctx }
      { c with apis := mapInsert c.apis c.current.api a2 }

/-- `Config.updateOIDCToken` (lines 411-444).  In the source the
refreshed fields are written through the `*OIDCConfig` pointer and the
context struct is then stored back into the map; the net state is the
value-level update modelled here. -/
def Config.updateOIDCToken (c : Config) (disc : String → Option String)
    (exch : ClientCredsConfig → Option OAuthToken) (now : Int) : TokenRes :=
  match c.GetCurrent with
  | .error e => .err (.current e) 0 0
  | .ok cctx =>
    match cctx.oidc with
    | none => .nilDeref
    | some o =>
      let tkn : OAuthToken := ⟨o.accessToken, o.refreshToken, o.expiry⟩
      if tkn.valid now then
        .ok c 0 0 false
      else
        match o.clientCredentialsConfig disc with
        | none => .err .clientCreds 1 0
        | some ccc =>
          match exch ccc with
          | none => .err .fetchToken 1 1
          | some t =>
            let o2 : OIDCConfig :=
              { o with accessToken := t.accessToken
                       refreshToken := t.refreshToken
                       expiry := t.expiry }
            .ok (c.writeCurrentContext { cctx with oidc := some o2 }) 1 1 true

/-- Error taxonomy of `Client`. -/
inductive ClientErr where
  | current (e : CfgError)
  | update (e : UpdErr)
  | clientCreds
deriving DecidableEq

/-- The client value `Client` returns: `http.DefaultClient` on the
anonymous path, or an oauth2 client wrapping the token source built from
the client-credentials config. -/
inductive ClientVal where
  | defaultClient
  | oauthClient (ccc : ClientCredsConfig)
deriving DecidableEq

/-- Outcome of `Client`: the client (or error), the receiver's state
afterwards, the provider call counts, and whether the store was saved. -/
structure ClientOut where
  res       : Except ClientErr ClientVal
  cfg       : Config
  discCalls : Nat
  exchCalls : Nat
  saved     : Bool

/-- `Config.Client` (lines 446-466).  The second
`clientCredentialsConfig` call at line 457 uses only the static fields of
the credential, which a refresh never changes, so building it from the
pre-refresh credential is faithful. -/
def Config.Client (c : Config) (disc : String → Option String)
    (exch : ClientCredsConfig → Option OAuthToken) (now : Int) : ClientOut :=
  match c.GetCurrent with
  | .error e => ⟨.error (.current e), c, 0, 0, false⟩
  | .ok cctx =>
    match cctx.oidc with
    | none => ⟨.ok .defaultClient, c, 0, 0, false⟩
    | some o =>
      match c.updateOIDCToken disc exch now with
      -- unreachable: `updateOIDCToken` re-resolves the same `GetCurrent`
      -- and sees the same non-nil credential
      | .nilDeref => ⟨.error (.update (.current .emptySelection)), c, 0, 0, false⟩
      | .err e d x => ⟨.error (.update e), c, d, x, false⟩
      | .ok c2 d x sv =>
        match o.clientCredentialsConfig disc with
        | none => ⟨.error .clientCreds, c2, d + 1, x, sv⟩
        | some ccc => ⟨.ok (.oauthClient ccc), c2, d + 1, x, sv⟩

/-! ### Pointer-aware model of `GetCurrent`

In the source `Context.OIDC` is a `*OIDCConfig`.  `GetCurrent` returns
the `Context` struct by value, which copies the `Tenant` string and the
pointer — not the pointed-to credential.  To state what that sharing
means we model the pointer as a `Nat` address into an explicit heap of
credentials. -/

/-- A context whose credential is a heap address (`*OIDCConfig`). -/
structure ContextH where
  tenant  : String
  oidcRef : Option Nat
deriving DecidableEq

/-- An API in the pointer-aware model. -/
structure APIH where
  url      : String
  contexts : List (TenantName × ContextH)
deriving DecidableEq

/-- The store together with the heap of `OIDCConfig` allocations. -/
structure StoreH where
  apis    : List (APIName × APIH)
  current : CurrentSel
  heap    : List OIDCConfig
deriving DecidableEq

/-- Dereference a credential address. -/
def heapRead (h : List OIDCConfig) (a : Nat) : Option OIDCConfig :=
  h.get? a

/-- Assign through a credential address (`cctx.OIDC.Field = v`). -/
def heapWrite (h : List OIDCConfig) (a : Nat) (v : OIDCConfig) : List OIDCConfig :=
  h.set a v

/-- `GetCurrent` in the pointer-aware model: same control flow as
`Config.GetCurrent`, returning the struct copy (label and pointer). -/
def StoreH.getCurrentH (s : StoreH) : Except CfgError ContextH :=
  if s.current.api = "" ∨ s.current.tenant = "" then
    .error .emptySelection
  else
    match mapLookup s.apis s.current.api with
    | none => .error .notFound
    | some a =>
      match mapLookup a.contexts s.current.tenant with
      | none => .error .notFound
      | some ctx => .ok ctx

/-- The credential the store itself sees for its current context: resolve
the selection in the store and dereference the stored context's pointer. -/
def StoreH.resolveCred (s : StoreH) : Option OIDCConfig :=
  match s.getCurrentH with
  | .error _ => none
  | .ok ctx =>
    match ctx.oidcRef with
    | none => none
    | some a => heapRead s.heap a

/-! ### Persistence (`Read`/`Save`, lines 252-310)

The JSON document written by `Save` and parsed by `Read` is modelled by
`Jval`; `encoding/json` field tags give the field names.  `expiry` is a
`time.Time` serialized as RFC3339; in the `Int`-seconds model its
serialization is the number itself (the spec's round trip is stated
modulo timestamp precision). -/

/-- A JSON value (the fragment these documents use). -/
inductive Jval where
  | null
  | str (s : String)
  | int (n : Int)
  | obj (fields : List (String × Jval))

/-- Serialization of an `OIDCConfig` under its json tags. -/
def encodeOIDC (o : OIDCConfig) : Jval :=
  .obj [("accessToken", .str o.accessToken),
        ("refreshToken", .str o.refreshToken),
        ("expiry", .int o.expiry),
        ("audience", .str o.audience),
        ("clientId", .str o.clientID),
        ("clientSecret", .str o.clientSecret),
        ("issuerUrl", .str o.issuerURL)]

/-- Serialization of a `Context`; a nil credential pointer encodes as
`null`. -/
def encodeContext (ctx : Context) : Jval :=
  .obj [("tenant", .str ctx.tenant),
        ("oidc", match ctx.oidc with | none => .null | some o => encodeOIDC o)]

/-- Serialization of an `API`. -/
def encodeAPI (a : API) : Jval :=
  .obj [("url", .str a.url),
        ("contexts", .obj (a.contexts.map fun p => (p.1, encodeContext p.2)))]

/-- Serialization of the whole document (`json.NewEncoder(file).Encode(c)`). -/
def encodeConfig (c : Config) : Jval :=
  .obj [("apis", .obj (c.apis.map fun p => (p.1, encodeAPI p.2))),
        ("current", .obj [("api", .str c.current.api),
                          ("tenant", .str c.current.tenant)])]

/-- Field lookup in a JSON object. -/
def getField (fs : List (String × Jval)) (k : String) : Option Jval :=
  mapLookup fs k

/-- Deserialization of an `OIDCConfig`. -/
def decodeOIDC (j : Jval) : Option OIDCConfig :=
  match j with
  | .obj fs =>
    match getField fs "accessToken", getField fs "refreshToken",
          getField fs "expiry", getField fs "audience", getField fs "clientId",
          getField fs "clientSecret", getField fs "issuerUrl" with
    | some (.str at2), some (.str rt), some (.int e), some (.str au),
      some (.str ci), some (.str cs), some (.str iu) =>
        some ⟨at2, rt, e, au, ci, cs, iu⟩
    | _, _, _, _, _, _, _ => none
  | _ => none

/-- Deserialization of a `Context`; `null` (or a missing field) decodes
to a nil credential, as `encoding/json` leaves the pointer nil. -/
def decodeContext (j : Jval) : Option Context :=
  match j with
  | .obj fs =>
    match getField fs "tenant" with
    | some (.str t) =>
      match getField fs "oidc" with
      | some .null => some ⟨t, none⟩
      | none => some ⟨t, none⟩
      | some jo => (decodeOIDC jo).map fun o => ⟨t, some o⟩
    | _ => none
  | _ => none

/-- Deserialization of a context map, entry by entry. -/
def decodeCtxMap : List (String × Jval) → Option (List (TenantName × Context))
  | [] => some []
  | (k, j) :: rest =>
    match decodeContext j with
    | none => none
    | some ctx => (decodeCtxMap rest).map fun r => (k, ctx) :: r

/-- Deserialization of an `API`. -/
def decodeAPI (j : Jval) : Option API :=
  match j with
  | .obj fs =>
    match getField fs "url", getField fs "contexts" with
    | some (.str u), some (.obj cs) => (decodeCtxMap cs).map fun ctxs => ⟨u, ctxs⟩
    | _, _ => none
  | _ => none

/-- Deserialization of the API map, entry by entry. -/
def decodeAPIMap : List (String × Jval) → Option (List (APIName × API))
  | [] => some []
  | (k, j) :: rest =>
    match decodeAPI j with
    | none => none
    | some a => (decodeAPIMap rest).map fun r => (k, a) :: r

/-- Deserialization of the whole document. -/
def decodeConfig (j : Jval) : Option Config :=
  match j with
  | .obj fs =>
    match getField fs "apis", getField fs "current" with
    | some (.obj as2), some (.obj cur) =>
      match getField cur "api", getField cur "tenant" with
      | some (.str ca), some (.str ct) =>
        (decodeAPIMap as2).map fun apis => ⟨apis, ⟨ca, ct⟩⟩
      | _, _ => none
    | _, _ => none
  | _ => none

/-- `Config.Save` (lines 294-310): the file contents after a save are the
serialized document. -/
def Config.SaveDoc (c : Config) : Jval :=
  encodeConfig c

/-- `Read` (lines 252-270): a missing or empty file yields the zero-value
`Config`; otherwise the document is parsed (`none` models the fatal
deserialization error). -/
def ReadDoc (file : Option Jval) : Option Config :=
  match file with
  | none => some ⟨[], ⟨"", ""⟩⟩
  | some j => decodeConfig j

/-! ### Helper lemmas -/

theorem getCurrent_ok_elim (c : Config) (ctx : Context) (h : c.GetCurrent = .ok ctx) :
    (¬ c.current.api = "" ∧ ¬ c.current.tenant = "") ∧
    ∃ a, mapLookup c.apis c.current.api = some a ∧
         mapLookup a.contexts c.current.tenant = some ctx := by
  unfold Config.GetCurrent at h
  split at h
  · exact absurd h (by simp)
  · rename_i h1
    push_neg at h1
    split at h
    · exact absurd h (by simp)
    · rename_i a hA
      split at h
      · exact absurd h (by simp)
      · rename_i ctx2 hT
        simp only [Except.ok.injEq] at h
        subst h
        exact ⟨h1, a, hA, hT⟩

theorem getCurrent_resolved (c : Config) (a : API) (ctx : Context)
    (h1 : ¬ c.current.api = "") (h2 : ¬ c.current.tenant = "")
    (hA : mapLookup c.apis c.current.api = some a)
    (hT : mapLookup a.contexts c.current.tenant = some ctx) :
    c.GetCurrent = .ok ctx := by
  unfold Config.GetCurrent
  rw [if_neg (by push_neg; exact ⟨h1, h2⟩)]
  simp only [hA, hT]

theorem heapRead_heapWrite (h : List OIDCConfig) (a : Nat) (v : OIDCConfig)
    (hlt : a < h.length) : heapRead (heapWrite h a v) a = some v := by
  unfold heapRead heapWrite
  induction h generalizing a with
  | nil => simp at hlt
  | cons x xs ih =>
    cases a with
    | zero => rfl
    | succ n =>
      simp only [List.set, List.get?]
      exact ih n (by simpa using hlt)

theorem decodeOIDC_encodeOIDC (o : OIDCConfig) :
    decodeOIDC (encodeOIDC o) = some o := rfl

theorem decodeContext_encodeContext (ctx : Context) :
    decodeContext (encodeContext ctx) = some ctx := by
  obtain ⟨t, o⟩ := ctx
  cases o <;> rfl

theorem decodeCtxMap_encode (l : List (TenantName × Context)) :
    decodeCtxMap (l.map fun p => (p.1, encodeContext p.2)) = some l := by
  induction l with
  | nil => rfl
  | cons p rest ih =>
    obtain ⟨k, ctx⟩ := p
    show (match decodeContext (encodeContext ctx) with
          | none => none
          | some ctx2 => (decodeCtxMap (rest.map fun p => (p.1, encodeContext p.2))).map
              fun r => (k, ctx2) :: r) = some ((k, ctx) :: rest)
    rw [decodeContext_encodeContext, ih]
    rfl

theorem decodeAPI_encodeAPI (a : API) : decodeAPI (encodeAPI a) = some a := by
  obtain ⟨u, ctxs⟩ := a
  show (decodeCtxMap (ctxs.map fun p => (p.1, encodeContext p.2))).map
      (fun ctxs2 => (⟨u, ctxs2⟩ : API)) = some ⟨u, ctxs⟩
  rw [decodeCtxMap_encode]
  rfl

theorem decodeAPIMap_encode (l : List (APIName × API)) :
    decodeAPIMap (l.map fun p => (p.1, encodeAPI p.2)) = some l := by
  induction l with
  | nil => rfl
  | cons p rest ih =>
    obtain ⟨k, a⟩ := p
    show (match decodeAPI (encodeAPI a) with
          | none => none
          | some a2 => (decodeAPIMap (rest.map fun p => (p.1, encodeAPI p.2))).map
              fun r => (k, a2) :: r) = some ((k, a) :: rest)
    rw [decodeAPI_encodeAPI, ih]
    rfl

theorem decodeConfig_encodeConfig (c : Config) :
    decodeConfig (encodeConfig c) = some c := by
  obtain ⟨apis, ⟨ca, ct⟩⟩ := c
  show (decodeAPIMap (apis.map fun p => (p.1, encodeAPI p.2))).map
      (fun apis2 => (⟨apis2, ⟨ca, ct⟩⟩ : Config)) = some ⟨apis, ⟨ca, ct⟩⟩
  rw [decodeAPIMap_encode]
  rfl

theorem updateOIDCToken_invalid_eq (c : Config) (disc : String → Option String)
    (exch : ClientCredsConfig → Option OAuthToken) (now : Int)
    (cctx : Context) (o : OIDCConfig)
    (h1 : c.GetCurrent = .ok cctx) (h2 : cctx.oidc = some o)
    (hval : OAuthToken.valid ⟨o.accessToken, o.refreshToken, o.expiry⟩ now = false) :
    c.updateOIDCToken disc exch now =
      match o.clientCredentialsConfig disc with
      | none => .err .clientCreds 1 0
      | some ccc =>
        match exch ccc with
        | none => .err .fetchToken 1 1
        | some t =>
          .ok (c.writeCurrentContext ⟨cctx.tenant, some (o.withToken t)⟩) 1 1 true := by
  simp only [Config.updateOIDCToken, h1, h2, hval]
  rfl

/-! ### Claims -/

/-- C1: a successful `AddTenant(name, api, tenant, oidc)` sets the
selection to `(api, name)` when both fields of the selection were empty
before the call, and leaves the selection unchanged otherwise (including
when it dangles). -/
theorem addTenant_auto_selection (c : Config) (n : TenantName) (api : APIName)
    (t : String) (o : Option OIDCConfig) (hok : (c.AddTenant n api t o).1 = none) :
    ((c.current.api = "" ∧ c.current.tenant = "") →
      (c.AddTenant n api t o).2.current = ⟨api, n⟩)
    ∧ (¬ (c.current.api = "" ∧ c.current.tenant = "") →
      (c.AddTenant n api t o).2.current = c.current) := by
  unfold Config.AddTenant at hok ⊢
  cases hA : mapLookup c.apis api with
  | none => simp [hA] at hok
  | some a =>
    cases hT : mapLookup a.contexts n with
    | some _ => simp [hA, hT] at hok
    | none =>
      by_cases hc : c.current.api = "" ∧ c.current.tenant = ""
      · simp [hA, hT, hc]
      · simp [hA, hT, hc]

/-- C1 witness: from an empty store, `AddAPI "a" u` then
`AddTenant "t" "a" "T" nil` selects `("a", "t")` and `GetCurrent`
resolves it; a second `AddTenant "t2" "a" "T2" nil` leaves the selection
unchanged. -/
theorem addTenant_auto_selection_witness :
    (((Config.AddAPI ⟨[], ⟨"", ""⟩⟩ "a" "u").2.AddTenant "t" "a" "T" none).2.current
      = ⟨"a", "t"⟩)
    ∧ ((((Config.AddAPI ⟨[], ⟨"", ""⟩⟩ "a" "u").2.AddTenant "t" "a" "T" none).2.AddTenant
      "t2" "a" "T2" none).2.current = ⟨"a", "t"⟩)
    ∧ (((Config.AddAPI ⟨[], ⟨"", ""⟩⟩ "a" "u").2.AddTenant "t" "a" "T" none).2.GetCurrent
      = Except.ok ⟨"T", none⟩) :=
  ⟨(addTenant_auto_selection (Config.AddAPI ⟨[], ⟨"", ""⟩⟩ "a" "u").2 "t" "a" "T" none
      rfl).1 ⟨rfl, rfl⟩,
   Eq.trans
     ((addTenant_auto_selection
       ((Config.AddAPI ⟨[], ⟨"", ""⟩⟩ "a" "u").2.AddTenant "t" "a" "T" none).2
       "t2" "a" "T2" none rfl).2 (by decide)) rfl,
   rfl⟩

/-- C2: `GetCurrent` fails with the empty-selection error when either
selection field is empty, fails with the not-found error when the
non-empty selection does not resolve (dangling reference), and otherwise
returns exactly the context stored at the selected pair. -/
theorem getCurrent_characterization (c : Config) :
    ((c.current.api = "" ∨ c.current.tenant = "") →
      c.GetCurrent = .error .emptySelection)
    ∧ (¬ c.current.api = "" → ¬ c.current.tenant = "" → c.selResolves = false →
      c.GetCurrent = .error .notFound)
    ∧ (∀ a ctx, ¬ c.current.api = "" → ¬ c.current.tenant = "" →
      mapLookup c.apis c.current.api = some a →
      mapLookup a.contexts c.current.tenant = some ctx →
      c.GetCurrent = .ok ctx) := by
  refine ⟨fun h => ?_, fun h1 h2 hr => ?_, fun a ctx h1 h2 hA hT => ?_⟩
  · unfold Config.GetCurrent
    rw [if_pos h]
  · unfold Config.GetCurrent Config.selResolves at *
    rw [if_neg (by push_neg; exact ⟨h1, h2⟩)]
    cases hA : mapLookup c.apis c.current.api with
    | none => rfl
    | some a =>
      rw [hA] at hr
      cases hT : mapLookup a.contexts c.current.tenant with
      | none => simp [hT]
      | some ctx => simp [hT] at hr
  · exact getCurrent_resolved c a ctx h1 h2 hA hT

/-- C2 witness: select `("a", "t")`, remove the tenant, and `GetCurrent`
reports the dangling selection as not-found. -/
theorem getCurrent_characterization_witness :
    ((⟨[("a", ⟨"u", [("t", ⟨"T", none⟩)]⟩)], ⟨"a", "t"⟩⟩ : Config).RemoveTenant
      "t" "a").2.GetCurrent = .error .notFound :=
  (getCurrent_characterization
    ((⟨[("a", ⟨"u", [("t", ⟨"T", none⟩)]⟩)], ⟨"a", "t"⟩⟩ : Config).RemoveTenant
      "t" "a").2).2.1 (by decide) (by decide) (by decide)

/-- C8: on a store without API `x`, `AddAPI x u` succeeds and stores
`(u, empty context map)` under `x`; the subsequent `AddAPI x u2` fails
with the already-exists error, leaves the store unchanged, and the
stored URL for `x` is still `u`. -/
theorem addAPI_uniqueness (c : Config) (x : APIName) (u u2 : String)
    (habsent : mapLookup c.apis x = none) :
    (c.AddAPI x u).1 = none
    ∧ mapLookup (c.AddAPI x u).2.apis x = some ⟨u, []⟩
    ∧ ((c.AddAPI x u).2.AddAPI x u2).1 = some .alreadyExists
    ∧ ((c.AddAPI x u).2.AddAPI x u2).2 = (c.AddAPI x u).2
    ∧ mapLookup ((c.AddAPI x u).2.AddAPI x u2).2.apis x = some ⟨u, []⟩ := by
  have hlook : mapLookup (mapInsert c.apis x ⟨u, []⟩) x = some ⟨u, []⟩ := by
    rw [mapLookup_insert]
    simp
  unfold Config.AddAPI
  simp [habsent, hlook]

/-- C8 witness at a concrete store. -/
theorem addAPI_uniqueness_witness :
    (((⟨[], ⟨"", ""⟩⟩ : Config).AddAPI "x" "u").2.AddAPI "x" "u2").1
      = some .alreadyExists
    ∧ mapLookup (((⟨[], ⟨"", ""⟩⟩ : Config).AddAPI "x" "u").2.AddAPI "x" "u2").2.apis "x"
      = some ⟨"u", []⟩ :=
  ⟨(addAPI_uniqueness ⟨[], ⟨"", ""⟩⟩ "x" "u" "u2" rfl).2.2.1,
   (addAPI_uniqueness ⟨[], ⟨"", ""⟩⟩ "x" "u" "u2" rfl).2.2.2.2⟩

/-- C9: saving a store and reading the file back reproduces the same
structure: the same APIs, URLs, contexts, credentials and selection. -/
theorem save_read_roundtrip (c : Config) : ReadDoc (some c.SaveDoc) = some c :=
  decodeConfig_encodeConfig c

/-- C3 counterexample: the selection invariant is NOT preserved by every
mutating operation.  On a store whose invariant holds, a successful
`RemoveTenant` of the selected tenant leaves a non-empty selection that
no longer resolves. -/
theorem selection_invariant_counterexample :
    ((⟨[("a", ⟨"u", [("t", ⟨"T", none⟩)]⟩)], ⟨"a", "t"⟩⟩ : Config).selInv = true)
    ∧ (((⟨[("a", ⟨"u", [("t", ⟨"T", none⟩)]⟩)], ⟨"a", "t"⟩⟩ : Config).RemoveTenant
      "t" "a").1 = none)
    ∧ (((⟨[("a", ⟨"u", [("t", ⟨"T", none⟩)]⟩)], ⟨"a", "t"⟩⟩ : Config).RemoveTenant
      "t" "a").2.selInv = false) :=
  ⟨rfl, rfl, rfl⟩

/-- C3 amended: `AddAPI`, `AddTenant` and `SetCurrent` preserve the
selection invariant; `RemoveAPI` and `RemoveTenant` never change the
selection fields (so they never produce a half-set selection, but may
leave the unchanged selection dangling); and, provided the key used as
an API or tenant name is not the empty string (which the store reserves
as the unset marker), no operation turns a non-half-set selection into a
half-set one. -/
theorem selection_invariant_amended (c : Config) (nm an : APIName) (tn : TenantName)
    (url lbl : String) (o : Option OIDCConfig) :
    (c.selInv = true →
      (c.AddAPI nm url).2.selInv = true
      ∧ (c.AddTenant tn an lbl o).2.selInv = true
      ∧ (c.SetCurrent an tn).2.selInv = true)
    ∧ ((c.RemoveAPI nm).2.current = c.current
      ∧ (c.RemoveTenant tn an).2.current = c.current)
    ∧ (c.selHalfSet = false → ¬ an = "" → ¬ tn = "" →
      (c.AddAPI nm url).2.selHalfSet = false
      ∧ (c.AddTenant tn an lbl o).2.selHalfSet = false
      ∧ (c.SetCurrent an tn).2.selHalfSet = false
      ∧ (c.RemoveAPI nm).2.selHalfSet = false
      ∧ (c.RemoveTenant tn an).2.selHalfSet = false) := by
  have hAddAPIcur : (c.AddAPI nm url).2.current = c.current := by
    cases hA : mapLookup c.apis nm with
    | none => simp [Config.AddAPI, hA]
    | some a => simp [Config.AddAPI, hA]
  have hRemAPIcur : (c.RemoveAPI nm).2.current = c.current := by
    cases hA : mapLookup c.apis nm with
    | none => simp [Config.RemoveAPI, hA]
    | some a => simp [Config.RemoveAPI, hA]
  have hRemTencur : (c.RemoveTenant tn an).2.current = c.current := by
    cases hA : mapLookup c.apis an with
    | none => simp [Config.RemoveTenant, hA]
    | some a =>
      cases hT : mapLookup a.contexts tn with
      | none => simp [Config.RemoveTenant, hA, hT]
      | some x => simp [Config.RemoveTenant, hA, hT]
  refine ⟨fun hInv => ⟨?_, ?_, ?_⟩, ⟨hRemAPIcur, hRemTencur⟩,
    fun hHalf han htn => ⟨?_, ?_, ?_, ?_, ?_⟩⟩
  · -- AddAPI preserves selInv
    cases hA : mapLookup c.apis nm with
    | some a => simpa only [Config.AddAPI, hA] using hInv
    | none =>
      simp only [Config.AddAPI, hA]
      unfold Config.selInv Config.selResolves at hInv ⊢
      rw [Bool.or_eq_true] at hInv ⊢
      rcases hInv with hb | hres
      · exact Or.inl hb
      · right
        revert hres
        cases hC : mapLookup c.apis c.current.api with
        | none => intro h; exact absurd h (by simp)
        | some a2 =>
          intro hres
          have hne : ¬ nm = c.current.api := by
            intro he
            rw [he, hC] at hA
            exact absurd hA (by simp)
          simp only [mapLookup_insert, if_neg hne, hC]
          simpa only [hC] using hres
  · -- AddTenant preserves selInv
    cases hA : mapLookup c.apis an with
    | none => simpa only [Config.AddTenant, hA] using hInv
    | some a =>
      cases hT : mapLookup a.contexts tn with
      | some x => simpa only [Config.AddTenant, hA, hT] using hInv
      | none =>
        simp only [Config.AddTenant, hA, hT]
        by_cases hboth : c.current.api = "" ∧ c.current.tenant = ""
        · rw [if_pos hboth]
          simp [Config.selInv, Config.selResolves, mapLookup_insert]
        · rw [if_neg hboth]
          unfold Config.selInv Config.selResolves at hInv ⊢
          rw [Bool.or_eq_true] at hInv ⊢
          rcases hInv with hb | hres
          · exact Or.inl hb
          · right
            revert hres
            cases hC : mapLookup c.apis c.current.api with
            | none => intro h; exact absurd h (by simp)
            | some a3 =>
              intro hres
              by_cases he : an = c.current.api
              · have ha3 : a3 = a := by
                  rw [he] at hA
                  rw [hA] at hC
                  exact (Option.some.inj hC).symm
                subst ha3
                simp only [mapLookup_insert, if_pos he, hC]
                by_cases ht2 : tn = c.current.tenant
                · simp [mapLookup_insert, ht2]
                · simp only [mapLookup_insert, if_neg ht2]
                  simpa only [hC] using hres
              · simp only [mapLookup_insert, if_neg he, hC]
                simpa only [hC] using hres
  · -- SetCurrent preserves selInv
    cases hA : mapLookup c.apis an with
    | none => simpa only [Config.SetCurrent, hA] using hInv
    | some a =>
      cases hT : mapLookup a.contexts tn with
      | none => simpa only [Config.SetCurrent, hA, hT] using hInv
      | some ctx =>
        simp only [Config.SetCurrent, hA, hT]
        simp [Config.selInv, Config.selResolves, hA, hT]
  · -- AddAPI preserves non-half-set
    unfold Config.selHalfSet at hHalf ⊢
    rw [hAddAPIcur]
    exact hHalf
  · -- AddTenant preserves non-half-set (names non-empty)
    cases hA : mapLookup c.apis an with
    | none => simpa only [Config.AddTenant, hA] using hHalf
    | some a =>
      cases hT : mapLookup a.contexts tn with
      | some x => simpa only [Config.AddTenant, hA, hT] using hHalf
      | none =>
        simp only [Config.AddTenant, hA, hT]
        by_cases hboth : c.current.api = "" ∧ c.current.tenant = ""
        · rw [if_pos hboth]
          simp [Config.selHalfSet, han, htn]
        · rw [if_neg hboth]
          exact hHalf
  · -- SetCurrent preserves non-half-set (names non-empty)
    cases hA : mapLookup c.apis an with
    | none => simpa only [Config.SetCurrent, hA] using hHalf
    | some a =>
      cases hT : mapLookup a.contexts tn with
      | none => simpa only [Config.SetCurrent, hA, hT] using hHalf
      | some ctx =>
        simp only [Config.SetCurrent, hA, hT]
        simp [Config.selHalfSet, han, htn]
  · -- RemoveAPI preserves non-half-set
    unfold Config.selHalfSet at hHalf ⊢
    rw [hRemAPIcur]
    exact hHalf
  · -- RemoveTenant preserves non-half-set
    unfold Config.selHalfSet at hHalf ⊢
    rw [hRemTencur]
    exact hHalf

/-- C5 counterexample: on a store whose selection resolves to a context
with no credential, `updateOIDCToken` does NOT return success — it
dereferences the nil `OIDC` pointer (line 419 has no nil check). -/
theorem updateToken_nil_credential_counterexample :
    ((⟨[("a", ⟨"u", [("t", ⟨"T", none⟩)]⟩)], ⟨"a", "t"⟩⟩ : Config).GetCurrent
      = Except.ok ⟨"T", none⟩)
    ∧ ((⟨[("a", ⟨"u", [("t", ⟨"T", none⟩)]⟩)], ⟨"a", "t"⟩⟩ : Config).updateOIDCToken
      (fun _ => some "turl") (fun _ => some ⟨"x", "y", 50⟩) 0 = .nilDeref) :=
  ⟨rfl, rfl⟩

/-- C5 amended: the anonymous short-circuit lives in `Client`, not in
`updateOIDCToken`: when the current context has no credential, `Client`
returns the plain default client without invoking `updateOIDCToken`, the
token provider, or `Save`, leaving the store unchanged;
`updateOIDCToken` itself would nil-dereference on such a context. -/
theorem anonymous_client_path (c : Config) (disc : String → Option String)
    (exch : ClientCredsConfig → Option OAuthToken) (now : Int) (cctx : Context)
    (h1 : c.GetCurrent = .ok cctx) (h2 : cctx.oidc = none) :
    c.Client disc exch now = ⟨.ok .defaultClient, c, 0, 0, false⟩ := by
  simp only [Config.Client, h1, h2]

/-- C5 amended witness at a concrete store. -/
theorem anonymous_client_path_witness :
    (⟨[("a", ⟨"u", [("t", ⟨"T", none⟩)]⟩)], ⟨"a", "t"⟩⟩ : Config).Client
      (fun _ => some "turl") (fun _ => none) 5
    = ⟨.ok .defaultClient, ⟨[("a", ⟨"u", [("t", ⟨"T", none⟩)]⟩)], ⟨"a", "t"⟩⟩, 0, 0, false⟩ :=
  anonymous_client_path ⟨[("a", ⟨"u", [("t", ⟨"T", none⟩)]⟩)], ⟨"a", "t"⟩⟩
    (fun _ => some "turl") (fun _ => none) 5 ⟨"T", none⟩ rfl rfl

/-- C6 counterexample: a credential whose stored expiry is the zero time
(`0`), with a non-empty access token, is past/within any margin of its
numeric expiry at `now = 100`, yet `updateOIDCToken` returns success
with zero provider calls and no write — the oauth2 library treats a
zero expiry as "never expires". -/
theorem token_validity_counterexample :
    ((⟨"tok", "ref", 0, "", "cid", "sec", "iss"⟩ : OIDCConfig).accessToken ≠ ""
    ∧ (⟨"tok", "ref", 0, "", "cid", "sec", "iss"⟩ : OIDCConfig).expiry
        ≤ 100 + expiryDelta)
    ∧ (⟨[("a", ⟨"u", [("t", ⟨"T", some ⟨"tok", "ref", 0, "", "cid", "sec", "iss"⟩⟩)]⟩)],
        ⟨"a", "t"⟩⟩ : Config).updateOIDCToken (fun _ => some "turl")
        (fun _ => some ⟨"new", "r", 1000⟩) 100
      = .ok (⟨[("a", ⟨"u", [("t", ⟨"T", some ⟨"tok", "ref", 0, "", "cid", "sec", "iss"⟩⟩)]⟩)],
        ⟨"a", "t"⟩⟩ : Config) 0 0 false :=
  ⟨⟨by decide, by decide⟩, rfl⟩

/-- C6 amended: with the margin `expiryDelta` (10 seconds, the oauth2
default): a non-empty token whose expiry is more than the margin in the
future — or whose expiry is unset (zero), which never expires — makes
`updateOIDCToken` succeed with no provider call and no write; an empty
token, or a set (non-zero) expiry already within the margin of `now`,
makes it engage the provider exactly once (one discovery call, and one
exchange call when discovery succeeds). -/
theorem token_validity_policy (c : Config) (disc : String → Option String)
    (exch : ClientCredsConfig → Option OAuthToken) (now : Int) (cctx : Context)
    (o : OIDCConfig) (h1 : c.GetCurrent = .ok cctx) (h2 : cctx.oidc = some o) :
    (¬ o.accessToken = "" → now + expiryDelta < o.expiry →
      c.updateOIDCToken disc exch now = .ok c 0 0 false)
    ∧ (¬ o.accessToken = "" → o.expiry = 0 →
      c.updateOIDCToken disc exch now = .ok c 0 0 false)
    ∧ ((o.accessToken = "" ∨ (¬ o.expiry = 0 ∧ o.expiry - expiryDelta < now)) →
      (c.updateOIDCToken disc exch now).discCount = 1
      ∧ (¬ o.clientCredentialsConfig disc = none →
        (c.updateOIDCToken disc exch now).exchCount = 1)) := by
  refine ⟨fun hne hfut => ?_, fun hne hzero => ?_, fun hbad => ?_⟩
  · have hval : OAuthToken.valid ⟨o.accessToken, o.refreshToken, o.expiry⟩ now = true := by
      unfold OAuthToken.valid OAuthToken.expired
      by_cases hz : o.expiry = 0
      · simp [hz, hne]
      · simp only [hz, if_false, ite_false]
        simp [hne]
        omega
    simp only [Config.updateOIDCToken, h1, h2, hval, if_true]
  · have hval : OAuthToken.valid ⟨o.accessToken, o.refreshToken, o.expiry⟩ now = true := by
      unfold OAuthToken.valid OAuthToken.expired
      simp [hzero, hne]
    simp only [Config.updateOIDCToken, h1, h2, hval, if_true]
  · have hval : OAuthToken.valid ⟨o.accessToken, o.refreshToken, o.expiry⟩ now = false := by
      unfold OAuthToken.valid OAuthToken.expired
      rcases hbad with hempty | ⟨hz, hlt⟩
      · simp [hempty]
      · simp [hz, hlt]
    have heq := updateOIDCToken_invalid_eq c disc exch now cctx o h1 h2 hval
    cases hccc : o.clientCredentialsConfig disc with
    | none =>
      refine ⟨?_, fun hc => absurd rfl hc⟩
      simp [heq, hccc, TokenRes.discCount]
    | some ccc =>
      cases hexch : exch ccc with
      | none =>
        refine ⟨?_, fun hc => ?_⟩ <;>
          simp [heq, hccc, hexch, TokenRes.discCount, TokenRes.exchCount]
      | some t =>
        refine ⟨?_, fun hc => ?_⟩ <;>
          simp [heq, hccc, hexch, TokenRes.discCount, TokenRes.exchCount]

/-- C6 amended witness: a token one hour from expiry is served from
cache with no provider call; an empty token forces exactly one
discovery and one exchange call. -/
theorem token_validity_policy_witness :
    ((⟨[("a", ⟨"u", [("t", ⟨"T", some ⟨"tok", "ref", 3600, "", "cid", "sec", "iss"⟩⟩)]⟩)],
        ⟨"a", "t"⟩⟩ : Config).updateOIDCToken (fun _ => some "turl")
        (fun _ => some ⟨"new", "r", 9999⟩) 0
      = .ok (⟨[("a", ⟨"u", [("t", ⟨"T", some ⟨"tok", "ref", 3600, "", "cid", "sec", "iss"⟩⟩)]⟩)],
        ⟨"a", "t"⟩⟩ : Config) 0 0 false)
    ∧ ((⟨[("a", ⟨"u", [("t", ⟨"T", some ⟨"", "ref", 3600, "", "cid", "sec", "iss"⟩⟩)]⟩)],
        ⟨"a", "t"⟩⟩ : Config).updateOIDCToken (fun _ => some "turl")
        (fun _ => some ⟨"new", "r", 9999⟩) 0).discCount = 1
    ∧ ((⟨[("a", ⟨"u", [("t", ⟨"T", some ⟨"", "ref", 3600, "", "cid", "sec", "iss"⟩⟩)]⟩)],
        ⟨"a", "t"⟩⟩ : Config).updateOIDCToken (fun _ => some "turl")
        (fun _ => some ⟨"new", "r", 9999⟩) 0).exchCount = 1 :=
  ⟨(token_validity_policy
      ⟨[("a", ⟨"u", [("t", ⟨"T", some ⟨"tok", "ref", 3600, "", "cid", "sec", "iss"⟩⟩)]⟩)],
        ⟨"a", "t"⟩⟩
      (fun _ => some "turl") (fun _ => some ⟨"new", "r", 9999⟩) 0
      ⟨"T", some ⟨"tok", "ref", 3600, "", "cid", "sec", "iss"⟩⟩
      ⟨"tok", "ref", 3600, "", "cid", "sec", "iss"⟩ rfl rfl).1
      (by decide) (by decide),
   ((token_validity_policy
      ⟨[("a", ⟨"u", [("t", ⟨"T", some ⟨"", "ref", 3600, "", "cid", "sec", "iss"⟩⟩)]⟩)],
        ⟨"a", "t"⟩⟩
      (fun _ => some "turl") (fun _ => some ⟨"new", "r", 9999⟩) 0
      ⟨"T", some ⟨"", "ref", 3600, "", "cid", "sec", "iss"⟩⟩
      ⟨"", "ref", 3600, "", "cid", "sec", "iss"⟩ rfl rfl).2.2
      (Or.inl rfl)).1,
   ((token_validity_policy
      ⟨[("a", ⟨"u", [("t", ⟨"T", some ⟨"", "ref", 3600, "", "cid", "sec", "iss"⟩⟩)]⟩)],
        ⟨"a", "t"⟩⟩
      (fun _ => some "turl") (fun _ => some ⟨"new", "r", 9999⟩) 0
      ⟨"T", some ⟨"", "ref", 3600, "", "cid", "sec", "iss"⟩⟩
      ⟨"", "ref", 3600, "", "cid", "sec", "iss"⟩ rfl rfl).2.2
      (Or.inl rfl)).2 (by decide)⟩

/-- C7: when the current credential's token is invalid and the provider
exchange succeeds with token `t`, `updateOIDCToken` overwrites exactly
the access token, refresh token and expiry with `t`'s values, writes the
context back, saves, and the persisted store re-reads to the updated
state in which `GetCurrent` returns the new credential. -/
theorem refresh_writethrough (c : Config) (disc : String → Option String)
    (exch : ClientCredsConfig → Option OAuthToken) (now : Int)
    (cctx : Context) (o : OIDCConfig) (ccc : ClientCredsConfig) (t : OAuthToken)
    (h1 : c.GetCurrent = .ok cctx) (h2 : cctx.oidc = some o)
    (hinvalid : OAuthToken.valid ⟨o.accessToken, o.refreshToken, o.expiry⟩ now = false)
    (hccc : o.clientCredentialsConfig disc = some ccc)
    (hexch : exch ccc = some t) :
    c.updateOIDCToken disc exch now
      = .ok (c.writeCurrentContext ⟨cctx.tenant, some (o.withToken t)⟩) 1 1 true
    ∧ (c.writeCurrentContext ⟨cctx.tenant, some (o.withToken t)⟩).GetCurrent
      = .ok ⟨cctx.tenant, some (o.withToken t)⟩
    ∧ ReadDoc (some (c.writeCurrentContext
        ⟨cctx.tenant, some (o.withToken t)⟩).SaveDoc)
      = some (c.writeCurrentContext ⟨cctx.tenant, some (o.withToken t)⟩) := by
  obtain ⟨⟨hne1, hne2⟩, a, hA, hT⟩ := getCurrent_ok_elim c cctx h1
  refine ⟨?_, ?_, decodeConfig_encodeConfig _⟩
  · simp only [Config.updateOIDCToken, h1, h2, hinvalid, hccc, hexch]
    rfl
  · unfold Config.writeCurrentContext
    simp only [hA]
    refine getCurrent_resolved _ { a with contexts := (mapInsert a.contexts c.current.tenant ⟨cctx.tenant, some (o.withToken t)⟩) } _ hne1 hne2 ?_ ?_
    · rw [mapLookup_insert]
      simp
    · rw [mapLookup_insert]
      simp

/-- C7 witness at a concrete store with an empty (hence invalid) access
token. -/
theorem refresh_writethrough_witness :
    (⟨[("a", ⟨"u", [("t", ⟨"T", some ⟨"", "ref", 0, "", "cid", "sec", "iss"⟩⟩)]⟩)],
      ⟨"a", "t"⟩⟩ : Config).updateOIDCToken
      (fun _ => some "turl") (fun _ => some ⟨"new", "nref", 1000⟩) 0
    = .ok ((⟨[("a", ⟨"u", [("t", ⟨"T", some ⟨"", "ref", 0, "", "cid", "sec", "iss"⟩⟩)]⟩)],
      ⟨"a", "t"⟩⟩ : Config).writeCurrentContext
        ⟨"T", some (OIDCConfig.withToken ⟨"", "ref", 0, "", "cid", "sec", "iss"⟩
          ⟨"new", "nref", 1000⟩)⟩) 1 1 true :=
  (refresh_writethrough
    ⟨[("a", ⟨"u", [("t", ⟨"T", some ⟨"", "ref", 0, "", "cid", "sec", "iss"⟩⟩)]⟩)],
      ⟨"a", "t"⟩⟩
    (fun _ => some "turl") (fun _ => some ⟨"new", "nref", 1000⟩) 0
    ⟨"T", some ⟨"", "ref", 0, "", "cid", "sec", "iss"⟩⟩
    ⟨"", "ref", 0, "", "cid", "sec", "iss"⟩
    ⟨"cid", "sec", "turl", ["openid", "offline_access"], none⟩
    ⟨"new", "nref", 1000⟩ rfl rfl rfl rfl rfl).1

/-- C10: for a credentialed current context, every `Client` call makes
at least one provider discovery call, even when the cached token is
valid and no refresh happens. -/
theorem client_discovery_always (c : Config) (disc : String → Option String)
    (exch : ClientCredsConfig → Option OAuthToken) (now : Int)
    (cctx : Context) (o : OIDCConfig)
    (h1 : c.GetCurrent = .ok cctx) (h2 : cctx.oidc = some o) :
    1 ≤ (c.Client disc exch now).discCalls := by
  by_cases hval : OAuthToken.valid ⟨o.accessToken, o.refreshToken, o.expiry⟩ now = true
  · cases hccc : o.clientCredentialsConfig disc with
    | none => simp [Config.Client, Config.updateOIDCToken, h1, h2, hval, hccc]
    | some ccc => simp [Config.Client, Config.updateOIDCToken, h1, h2, hval, hccc]
  · have hval' : OAuthToken.valid ⟨o.accessToken, o.refreshToken, o.expiry⟩ now = false :=
      Bool.not_eq_true _ ▸ hval
    cases hccc : o.clientCredentialsConfig disc with
    | none => simp [Config.Client, Config.updateOIDCToken, h1, h2, hval', hccc]
    | some ccc =>
      cases hexch : exch ccc with
      | none => simp [Config.Client, Config.updateOIDCToken, h1, h2, hval', hccc, hexch]
      | some t => simp [Config.Client, Config.updateOIDCToken, h1, h2, hval', hccc, hexch]

/-- C10 witness: a store whose cached token is valid for another hour
still pays one discovery call on `Client`. -/
theorem client_discovery_always_witness :
    1 ≤ ((⟨[("a", ⟨"u", [("t", ⟨"T", some ⟨"tok", "ref", 3600, "", "cid", "sec", "iss"⟩⟩)]⟩)],
      ⟨"a", "t"⟩⟩ : Config).Client (fun _ => some "turl") (fun _ => none) 0).discCalls :=
  client_discovery_always
    ⟨[("a", ⟨"u", [("t", ⟨"T", some ⟨"tok", "ref", 3600, "", "cid", "sec", "iss"⟩⟩)]⟩)],
      ⟨"a", "t"⟩⟩
    (fun _ => some "turl") (fun _ => none) 0
    ⟨"T", some ⟨"tok", "ref", 3600, "", "cid", "sec", "iss"⟩⟩
    ⟨"tok", "ref", 3600, "", "cid", "sec", "iss"⟩ rfl rfl

/-- C4 counterexample: the `Context` returned by `GetCurrent` is NOT a
snapshot in its credential: assigning through the returned context's
credential pointer changes the credential the store itself resolves for
its current context, with no write-back or save. -/
theorem snapshot_counterexample :
    ((⟨[("a", ⟨"u", [("t", ⟨"T", some 0⟩)]⟩)], ⟨"a", "t"⟩,
        [⟨"tokA", "refA", 100, "aud", "cid", "sec", "iss"⟩]⟩ : StoreH).getCurrentH
      = Except.ok ⟨"T", some 0⟩)
    ∧ ((⟨[("a", ⟨"u", [("t", ⟨"T", some 0⟩)]⟩)], ⟨"a", "t"⟩,
        [⟨"tokA", "refA", 100, "aud", "cid", "sec", "iss"⟩]⟩ : StoreH).resolveCred
      = some ⟨"tokA", "refA", 100, "aud", "cid", "sec", "iss"⟩)
    ∧ ((⟨[("a", ⟨"u", [("t", ⟨"T", some 0⟩)]⟩)], ⟨"a", "t"⟩,
        heapWrite [⟨"tokA", "refA", 100, "aud", "cid", "sec", "iss"⟩] 0
          ⟨"tokB", "refB", 200, "aud", "cid", "sec", "iss"⟩⟩ : StoreH).resolveCred
      = some ⟨"tokB", "refB", 200, "aud", "cid", "sec", "iss"⟩)
    ∧ (⟨"tokA", "refA", 100, "aud", "cid", "sec", "iss"⟩ : OIDCConfig)
      ≠ ⟨"tokB", "refB", 200, "aud", "cid", "sec", "iss"⟩ :=
  ⟨rfl, rfl, rfl, by decide⟩

/-- C4 amended: the returned `Context` is a shallow copy — its own
fields (label and credential pointer) are a snapshot, so the store's
context entry is unaffected by heap writes, but the credential itself is
shared by reference: assigning through the returned pointer makes the
store resolve exactly the written credential. -/
theorem getCurrent_shallow_copy (s : StoreH) (ctx : ContextH) (a : Nat) (v : OIDCConfig)
    (h1 : s.getCurrentH = .ok ctx) (h2 : ctx.oidcRef = some a)
    (h3 : a < s.heap.length) :
    (⟨s.apis, s.current, heapWrite s.heap a v⟩ : StoreH).getCurrentH = .ok ctx
    ∧ (⟨s.apis, s.current, heapWrite s.heap a v⟩ : StoreH).resolveCred = some v := by
  have hg : (⟨s.apis, s.current, heapWrite s.heap a v⟩ : StoreH).getCurrentH
      = s.getCurrentH := rfl
  refine ⟨hg.trans h1, ?_⟩
  unfold StoreH.resolveCred
  rw [hg]
  simp only [h1, h2]
  exact heapRead_heapWrite s.heap a v h3

/-- C4 amended witness at a concrete store. -/
theorem getCurrent_shallow_copy_witness :
    (⟨[("a", ⟨"u", [("t", ⟨"T", some 0⟩)]⟩)], ⟨"a", "t"⟩,
      heapWrite [⟨"tokC", "refC", 7, "aud", "cid", "sec", "iss"⟩] 0
        ⟨"tokD", "refD", 8, "aud", "cid", "sec", "iss"⟩⟩ : StoreH).resolveCred
    = some ⟨"tokD", "refD", 8, "aud", "cid", "sec", "iss"⟩ :=
  (getCurrent_shallow_copy
    ⟨[("a", ⟨"u", [("t", ⟨"T", some 0⟩)]⟩)], ⟨"a", "t"⟩,
      [⟨"tokC", "refC", 7, "aud", "cid", "sec", "iss"⟩]⟩
    ⟨"T", some 0⟩ 0 ⟨"tokD", "refD", 8, "aud", "cid", "sec", "iss"⟩
    rfl rfl (by decide)).2

/-- C3 amended witness at a concrete store. -/
theorem selection_invariant_amended_witness :
    ((⟨[("a", ⟨"u", [("t", ⟨"T", none⟩)]⟩)], ⟨"a", "t"⟩⟩ : Config).AddTenant
      "t2" "a" "T2" none).2.selInv = true
    ∧ ((⟨[("a", ⟨"u", [("t", ⟨"T", none⟩)]⟩)], ⟨"a", "t"⟩⟩ : Config).AddTenant
      "t2" "a" "T2" none).2.selHalfSet = false :=
  ⟨((selection_invariant_amended ⟨[("a", ⟨"u", [("t", ⟨"T", none⟩)]⟩)] , ⟨"a", "t"⟩⟩
      "b" "a" "t2" "u2" "T2" none).1 (by decide)).2.1,
   (((selection_invariant_amended ⟨[("a", ⟨"u", [("t", ⟨"T", none⟩)]⟩)] , ⟨"a", "t"⟩⟩
      "b" "a" "t2" "u2" "T2" none).2.2 (by decide) (by decide) (by decide)).2.1)⟩

end Obsctl
